import Mathlib

/-!
Shallow embedding of the `arbitrary_logger` crate for checking its
natural-language specification.

The embedding follows the source files:
 - `src/filtered.rs`   : `Filtered`, `Filtered::new`, `Filtered::apply`, `parse_level`
 - `src/format/time.rs`: `scale`, `Timestamp::format_time`, `Uptime::format_time`
 - `src/logger/pretty.rs` and `src/format/writer.rs`: the plain (non-color) render pipeline
 - `src/lib.rs`        : the `log::Log` impl for `Logger`

Rust machine integers are modelled by `Nat` (no operation here can overflow:
`scale` divides a `u32` by `10^(9-s) ≤ 10^9 < 2^32`), strings by Lean `String`
(a byte-level prefix test on UTF-8 strings agrees with the codepoint-level
one used here, since UTF-8 is prefix-free per codepoint), and fallible I/O by
`Except`.
-/

/-- The `log::Level` enum of the `log` crate: `Error = 1 < Warn < Info < Debug < Trace = 5`. -/
inductive Level where
  | error
  | warn
  | info
  | debug
  | trace
deriving DecidableEq, Repr

/-- Numeric value of a `log::Level`, as in the `log` crate (`Error = 1`). -/
def Level.toNat : Level → Nat
  | .error => 1
  | .warn => 2
  | .info => 3
  | .debug => 4
  | .trace => 5

/-- The `log::LevelFilter` enum: `Off = 0 < Error < Warn < Info < Debug < Trace = 5`. -/
inductive LevelFilter where
  | off
  | error
  | warn
  | info
  | debug
  | trace
deriving DecidableEq, Repr

/-- Numeric value of a `log::LevelFilter` (`Off = 0`). -/
def LevelFilter.toNat : LevelFilter → Nat
  | .off => 0
  | .error => 1
  | .warn => 2
  | .info => 3
  | .debug => 4
  | .trace => 5

/-- The comparison `level >= *v` of `src/filtered.rs` (a `log::Level` against a
`log::LevelFilter`); the `log` crate compares the numeric values. -/
def levelGeFilter (l : Level) (v : LevelFilter) : Bool :=
  decide (v.toNat ≤ l.toNat)

/-- The comparison `metadata.level() <= self.min_level` of `src/lib.rs`. -/
def levelLeFilter (l : Level) (v : LevelFilter) : Bool :=
  decide (l.toNat ≤ v.toNat)

/-- Rust `input.starts_with(k)` for strings: `k` is a codepoint prefix of `input`. -/
def strStartsWith (input k : String) : Bool :=
  k.data.isPrefixOf input.data

/-- Helper for `input.contains("::")`: does the character list contain two
adjacent colons? -/
def hasDoubleColon : List Char → Bool
  | ':' :: ':' :: _ => true
  | _ :: rest => hasDoubleColon rest
  | [] => false

/-- Rust `input.contains("::")` of `src/filtered.rs`. -/
def containsDC (input : String) : Bool :=
  hasDoubleColon input.data

/-- Rust `char::to_ascii_lowercase`. -/
def asciiLower (c : Char) : Char :=
  if 65 ≤ c.toNat ∧ c.toNat ≤ 90 then Char.ofNat (c.toNat + 32) else c

/-- Rust `str::eq_ignore_ascii_case` used by `parse_level` in `src/filtered.rs`. -/
def eqIgnoreAsciiCase (a b : String) : Bool :=
  a.data.map asciiLower == b.data.map asciiLower

/-- `parse_level` of `src/filtered.rs`: case-insensitive match of the five level
tokens; anything else maps to `Off`. -/
def parse_level (s : String) : LevelFilter :=
  if eqIgnoreAsciiCase s "trace" then .trace
  else if eqIgnoreAsciiCase s "debug" then .debug
  else if eqIgnoreAsciiCase s "info" then .info
  else if eqIgnoreAsciiCase s "warn" then .warn
  else if eqIgnoreAsciiCase s "error" then .error
  else .off

/-- The `Filtered` struct of `src/filtered.rs`. The Rust `HashMap` is modelled
as an association list with unique keys; `apply` only iterates over the
entries (order-independent `any`), and insertion overwrites an existing key
exactly as `HashMap` collection does. -/
structure Filtered where
  targets : List (String × LevelFilter)
deriving DecidableEq, Repr

/-- Insertion into the modelled `HashMap`: a later entry under an existing key
overwrites the earlier one (the behaviour of `collect::<HashMap<_, _>>()`). -/
def insertKV (m : List (String × LevelFilter)) (k : String) (v : LevelFilter) :
    List (String × LevelFilter) :=
  if m.any (fun p => p.1 == k) then
    m.map (fun p => if p.1 == k then (k, v) else p)
  else
    m ++ [(k, v)]

/-- The first two items of Rust `s.split('=')`: the text before the first `=`
and, when an `=` exists, the text between the first and second `=`. The first
item always exists; the second is `none` exactly when `s` has no `=`. This is
what `Filtered::new` consumes via `iter.next()?` twice. -/
def splitEq (s : String) : Option (String × String) :=
  let before := s.data.takeWhile (fun c => c != '=')
  match s.data.dropWhile (fun c => c != '=') with
  | [] => none
  | _ :: tail => some (String.mk before, String.mk (tail.takeWhile (fun c => c != '=')))

/-- One step of the `filter_map` + `collect` in `Filtered::new`. -/
def newStep (m : List (String × LevelFilter)) (s : String) : List (String × LevelFilter) :=
  match splitEq s with
  | none => m
  | some (k, lvl) => insertKV m k (parse_level lvl)

/-- `Filtered::new` of `src/filtered.rs`: split every rule segment at `=`,
drop segments with no `=`, parse the level text, collect into the map. -/
def Filtered.new (rules : List String) : Filtered :=
  ⟨rules.foldl newStep []⟩

/-- Lookup of a key in the modelled table. -/
def Filtered.lookup (f : Filtered) (k : String) : Option LevelFilter :=
  (f.targets.find? (fun p => p.1 == k)).map (·.2)

/-- `Filtered::apply` of `src/filtered.rs`, kept in the source's shape:
for each entry `(k, v)`, return `false` early when
`!input.starts_with(k) || !input.contains("::") && k != input`
(Rust `&&` binds tighter than `||`), otherwise test `level >= v`. -/
def Filtered.apply (f : Filtered) (input : String) (level : Level) : Bool :=
  f.targets.any fun kv =>
    if !strStartsWith input kv.1 || (!containsDC input && kv.1 != input) then false
    else levelGeFilter level kv.2

/-- The rule-match condition as the code actually has it: the early-return
guard of `Filtered::apply` negated. A rule `k` matches `input` iff `input`
starts with `k` and (`input` contains `"::"` or `k` equals `input`). -/
def ruleMatches (k input : String) : Bool :=
  strStartsWith input k && (containsDC input || k == input)

/-- Follows the spec's words (§4.1 of the spec, quoted by the claim): a rule
`k` matches `target` iff `target` starts with `k` and, in addition, either
`target` contains no `"::"` delimiter at all or `k` equals `target` exactly.
This definition is deliberately transcribed from the spec, not the source, to
be compared against `ruleMatches`. -/
def specMatches (k target : String) : Bool :=
  strStartsWith target k && (!containsDC target || k == target)

/-! ## Helper lemmas about the filter table -/

/-- The per-entry test inside `Filtered.apply` equals `ruleMatches` combined
with the threshold comparison. -/
theorem apply_cond_eq (t : String) (l : Level) (kv : String × LevelFilter) :
    (if !strStartsWith t kv.1 || (!containsDC t && kv.1 != t) then false
     else levelGeFilter l kv.2)
      = (ruleMatches kv.1 t && levelGeFilter l kv.2) := by
  unfold ruleMatches
  cases hsw : strStartsWith t kv.1 <;> cases hct : containsDC t <;>
    cases heq : kv.1 == t <;> simp [bne, hsw, hct, heq]

/-- `Filtered.apply` is an existential over entries: some entry matches per
`ruleMatches` and its threshold is at or below the record's level. -/
theorem apply_eq_exists (f : Filtered) (t : String) (l : Level) :
    f.apply t l = true ↔
      ∃ kv, kv ∈ f.targets ∧ ruleMatches kv.1 t = true ∧ kv.2.toNat ≤ l.toNat := by
  constructor
  · intro h
    simp only [Filtered.apply, List.any_eq_true] at h
    obtain ⟨kv, hmem, hcond⟩ := h
    rw [apply_cond_eq, Bool.and_eq_true] at hcond
    exact ⟨kv, hmem, hcond.1, by simpa [levelGeFilter] using hcond.2⟩
  · rintro ⟨kv, hmem, hr, hle⟩
    simp only [Filtered.apply, List.any_eq_true]
    refine ⟨kv, hmem, ?_⟩
    rw [apply_cond_eq]
    simp [hr, levelGeFilter, hle]


/-- Does a rule segment contain an `=` character? `splitEq` yields a pair
exactly for such segments. -/
def hasEqChar (s : String) : Bool :=
  s.data.any (fun c => c == '=')

/-- Dropping up to the first `=` consumes the whole list when there is no `=`. -/
theorem dropWhile_ne_nil (l : List Char) (h : l.any (fun c => c == '=') = false) :
    l.dropWhile (fun c => c != '=') = [] := by
  induction l with
  | nil => rfl
  | cons c cs ih =>
    simp only [List.any_cons, Bool.or_eq_false_iff] at h
    have hc : (c != '=') = true := by simp [bne, h.1]
    simp [List.dropWhile_cons, hc, ih h.2]

/-- A segment without `=` is not split: `iter.next()?` fails the second time. -/
theorem splitEq_eq_none (s : String) (h : hasEqChar s = false) : splitEq s = none := by
  unfold splitEq
  rw [dropWhile_ne_nil s.data h]

/-- A segment without `=` contributes nothing to the accumulated table. -/
theorem newStep_skip (m : List (String × LevelFilter)) (s : String)
    (h : hasEqChar s = false) : newStep m s = m := by
  unfold newStep
  rw [splitEq_eq_none s h]

/-- The fold in `Filtered::new` only ever consumes segments containing `=`. -/
theorem foldl_newStep_filter (rules : List String) (m : List (String × LevelFilter)) :
    rules.foldl newStep m = (rules.filter hasEqChar).foldl newStep m := by
  induction rules generalizing m with
  | nil => rfl
  | cons s rs ih =>
    cases h : hasEqChar s with
    | true => simp [List.filter_cons, h, ih]
    | false => simp [List.filter_cons, h, ih, newStep_skip _ _ h]

/-- Rewriting the first argument of `eqIgnoreAsciiCase` along an
ascii-case-equality. -/
theorem eqI_congr {s t : String} (h : eqIgnoreAsciiCase s t = true) (u : String) :
    eqIgnoreAsciiCase s u = eqIgnoreAsciiCase t u := by
  have h' : s.data.map asciiLower = t.data.map asciiLower := by
    simpa [eqIgnoreAsciiCase] using h
  simp [eqIgnoreAsciiCase, h']


/-! ## Claims about the filter table -/

/-- C1 counterexample: with the table from rule `tokio::io=trace`, the record
`("tokio::io::Read", Trace)` IS suppressed by `Filtered::apply`, yet no rule
matches it under the claim's match condition (`specMatches`), so the claimed
equivalence fails at this input. -/
theorem C1_apply_specMatches_cex :
    Filtered.apply (Filtered.new ["tokio::io=trace"]) "tokio::io::Read" Level.trace = true
    ∧ ((Filtered.new ["tokio::io=trace"]).targets.any
        (fun kv => specMatches kv.1 "tokio::io::Read" && levelGeFilter Level.trace kv.2)) = false := by
  decide

/-- C1 (amended): `Filtered::apply` reports a rule with prefix `k` as matching
`target` iff `target` starts with `k` and, in addition, either `target`
contains a `"::"` delimiter or `k` equals `target` exactly; a record is
suppressed iff some matching rule has threshold at or below the record's
verbosity level. -/
theorem C1_apply_charact (f : Filtered) (t : String) (l : Level) :
    f.apply t l = true ↔
      ∃ kv ∈ f.targets, ruleMatches kv.1 t = true ∧ kv.2.toNat ≤ l.toNat :=
  apply_eq_exists f t l

/-- C1 witness: the characterisation applied at a concrete table and record. -/
theorem C1_apply_charact_witness :
    Filtered.apply (Filtered.new ["a::b=warn"]) "a::b::c" Level.debug = true :=
  (C1_apply_charact (Filtered.new ["a::b=warn"]) "a::b::c" Level.debug).mpr
    ⟨("a::b", LevelFilter.warn), by decide, by decide, by decide⟩

/-- C2 counterexample: a rule with prefix `tokio` DOES match the target
`tokio_util::io` (the target starts with `tokio` and contains `"::"`), and at
level Trace the rule `tokio=trace` suppresses it, contradicting the claim that
it never matches at any level. -/
theorem C2_tokio_util_cex :
    ruleMatches "tokio" "tokio_util::io" = true
    ∧ Filtered.apply (Filtered.new ["tokio=trace"]) "tokio_util::io" Level.trace = true := by
  decide

/-- C2 (amended): the rule `tokio::io=trace` matches target `tokio::io::Read`
at level Trace; a rule with prefix `tokio` ALSO matches target
`tokio_util::io` (which contains `"::"` and starts with `tokio`); a rule with
prefix `tokio` matches the exact target `tokio` but does not match target
`tokioX`, which is never suppressed. -/
theorem C2_match_examples : ∀ l : Level,
    Filtered.apply (Filtered.new ["tokio::io=trace"]) "tokio::io::Read" Level.trace = true
    ∧ ruleMatches "tokio" "tokio_util::io" = true
    ∧ Filtered.apply (Filtered.new ["tokio=trace"]) "tokio" Level.trace = true
    ∧ ruleMatches "tokio" "tokio" = true
    ∧ ruleMatches "tokio" "tokioX" = false
    ∧ Filtered.apply (Filtered.new ["tokio=trace"]) "tokioX" l = false := by
  intro l
  cases l <;> decide

/-- C4 counterexample: the segment `"=debug"` has an empty key, yet
`Filtered::new` stores an entry for it (under the empty-string key) instead of
discarding it: Rust's `split('=')` yields `Some("")`, not `None`, for the
empty key side. -/
theorem C4_empty_key_cex :
    (Filtered.new ["=debug"]).targets = [("", LevelFilter.debug)]
    ∧ (Filtered.new ["=debug"]).lookup "" = some LevelFilter.debug := by
  decide

/-- C4 (amended): each rule string is split at `=` (key before the first `=`,
level text up to the second); any segment lacking `=` yields no entry in the
resulting table (silently discarded, no error surfaced) — but a segment with
an empty key is NOT discarded: it yields an entry under the empty-string key. -/
theorem C4_new_drops_eqless_segments (rules : List String) :
    Filtered.new rules = Filtered.new (rules.filter hasEqChar) := by
  unfold Filtered.new
  rw [foldl_newStep_filter]

/-- C6: level-token parsing is ascii-case-insensitive (any two strings that
are equal ignoring ascii case parse to the same threshold), and every string
matching none of the five tokens parses to `Off`. -/
theorem C6_parse_level_case_insensitive (s t : String) :
    (eqIgnoreAsciiCase s t = true → parse_level s = parse_level t)
    ∧ ((eqIgnoreAsciiCase s "trace" = false ∧ eqIgnoreAsciiCase s "debug" = false
        ∧ eqIgnoreAsciiCase s "info" = false ∧ eqIgnoreAsciiCase s "warn" = false
        ∧ eqIgnoreAsciiCase s "error" = false) → parse_level s = LevelFilter.off) := by
  constructor
  · intro h
    unfold parse_level
    rw [eqI_congr h "trace", eqI_congr h "debug", eqI_congr h "info",
      eqI_congr h "warn", eqI_congr h "error"]
  · rintro ⟨h1, h2, h3, h4, h5⟩
    simp [parse_level, h1, h2, h3, h4, h5]

/-- C6 witness: concrete case variants agree and an unknown token parses to
`Off`. -/
theorem C6_parse_level_witness :
    parse_level "DeBuG" = parse_level "debug" ∧ parse_level "purple" = LevelFilter.off :=
  ⟨(C6_parse_level_case_insensitive "DeBuG" "debug").1 (by decide),
   (C6_parse_level_case_insensitive "purple" "purple").2
     ⟨by decide, by decide, by decide, by decide, by decide⟩⟩

/-- C10: suppression is upward-closed in verbosity: if `Filtered::apply`
suppresses a target at level `l`, it also suppresses it at every level `l'`
at least as verbose. -/
theorem C10_apply_upward_closed (f : Filtered) (t : String) (l l' : Level)
    (h : l.toNat ≤ l'.toNat) (ha : f.apply t l = true) : f.apply t l' = true := by
  rw [apply_eq_exists] at ha ⊢
  obtain ⟨kv, hmem, hr, hle⟩ := ha
  exact ⟨kv, hmem, hr, hle.trans h⟩

/-- C10 witness: a target suppressed at Warn is also suppressed at Trace. -/
theorem C10_apply_upward_closed_witness :
    Filtered.apply (Filtered.new ["a::b=warn"]) "a::b::c" Level.trace = true :=
  C10_apply_upward_closed (Filtered.new ["a::b=warn"]) "a::b::c" Level.warn Level.trace
    (by decide) (by decide)

/-! ## Time formatting (`src/format/time.rs`) -/

/-- `scale` of `src/format/time.rs`: `if s > 9 { return d; } d / 10^(9-s)`.
All values fit the source's machine integers: `10^(9-s) ≤ 10^9 < 2^32 ≤ usize::MAX`
and the quotient of a `u32` is a `u32`. -/
def scale (d s : Nat) : Nat :=
  if s > 9 then d else d / 10 ^ (9 - s)

/-- `TimestampStyle` of `src/format/time.rs`. -/
inductive TimestampStyle where
  | whole
  | fractional (width : Nat)
deriving DecidableEq, Repr

/-- `Timestamp::format_time` of `src/format/time.rs`, as a function of the
elapsed duration since the UNIX epoch (`secs` whole seconds, `nanos`
subsecond nanoseconds): `Whole` and `Fractional(0)` write the integer
seconds, `Fractional(w)` with `w ≠ 0` writes `secs.scale(nanos, w)`. -/
def Timestamp.format_time (style : TimestampStyle) (secs nanos : Nat) : String :=
  match style with
  | .whole => toString secs
  | .fractional width =>
      if width == 0 then toString secs
      else toString secs ++ "." ++ toString (scale nanos width)

/-- `Uptime::format_time` of `src/format/time.rs`, as a function of the
elapsed duration since the epoch instant: `Whole` writes `secs` followed by
`s`; `Fractional(d)` — with no special case for `d = 0` — writes
`secs.scale(nanos, d)` followed by `s`. -/
def Uptime.format_time (style : TimestampStyle) (secs nanos : Nat) : String :=
  match style with
  | .whole => toString secs ++ "s"
  | .fractional d => toString secs ++ "." ++ toString (scale nanos d) ++ "s"

/-- C5 counterexample: at one elapsed second (plus any nanoseconds), Uptime
with style `Fractional(0)` renders `"1.0s"`, which is neither the Timestamp
rendering `"1"` suffixed with `s` nor the Uptime `Whole` rendering `"1s"`:
`Uptime::format_time` has no `width == 0` special case. -/
theorem C5_uptime_fractional_zero_cex :
    Uptime.format_time (TimestampStyle.fractional 0) 1 5
        ≠ Timestamp.format_time (TimestampStyle.fractional 0) 1 5 ++ "s"
    ∧ Uptime.format_time (TimestampStyle.fractional 0) 1 5
        ≠ Uptime.format_time TimestampStyle.whole 1 5 := by
  decide

/-- C5 (amended): Uptime's rendered output equals the Timestamp rendering of
the same elapsed duration suffixed with `s` for style `Whole` and for
`Fractional(w)` with `w ≥ 1`; Timestamp renders `Fractional(0)` exactly like
`Whole`, but Uptime renders `Fractional(0)` as `secs.0s` (no special case for
a zero digit count). -/
theorem C5_uptime_vs_timestamp (secs nanos w : Nat) :
    (Uptime.format_time TimestampStyle.whole secs nanos
        = Timestamp.format_time TimestampStyle.whole secs nanos ++ "s")
    ∧ (1 ≤ w → Uptime.format_time (TimestampStyle.fractional w) secs nanos
        = Timestamp.format_time (TimestampStyle.fractional w) secs nanos ++ "s")
    ∧ (Timestamp.format_time (TimestampStyle.fractional 0) secs nanos
        = Timestamp.format_time TimestampStyle.whole secs nanos)
    ∧ (nanos < 10 ^ 9 → Uptime.format_time (TimestampStyle.fractional 0) secs nanos
        = toString secs ++ ".0s") := by
  refine ⟨rfl, ?_, rfl, ?_⟩
  · intro hw
    have hw0 : (w == 0) = false := by
      cases w with
      | zero => omega
      | succ n => rfl
    simp [Uptime.format_time, Timestamp.format_time, hw0]
  · intro hn
    have h0 : scale nanos 0 = 0 := by
      unfold scale
      simp only [if_neg (by omega : ¬ (0 : Nat) > 9), Nat.sub_zero]
      exact Nat.div_eq_of_lt hn
    simp only [Uptime.format_time, h0]
    rw [String.append_assoc, String.append_assoc]
    rfl

/-- C5 witness: the amended relation at a concrete duration. -/
theorem C5_uptime_vs_timestamp_witness :
    Uptime.format_time (TimestampStyle.fractional 3) 2 987654321
        = Timestamp.format_time (TimestampStyle.fractional 3) 2 987654321 ++ "s"
    ∧ Uptime.format_time (TimestampStyle.fractional 0) 2 987654321 = "2.0s" := by
  refine ⟨(C5_uptime_vs_timestamp 2 987654321 3).2.1 (by decide), ?_⟩
  have h := (C5_uptime_vs_timestamp 2 987654321 0).2.2.2 (by norm_num)
  rw [h]
  rfl

/-- C8: fractional scaling is monotonically non-decreasing in the requested
digit count over counts 1 through 9, is integer division by `10^(9-s)` with
no rounding for `s ≤ 9`, and saturates (returns `d` unscaled) for every digit
count of 9 or more. -/
theorem C8_scale_monotone_saturating (d s t : Nat) :
    (1 ≤ s → s ≤ t → t ≤ 9 → scale d s ≤ scale d t)
    ∧ (s ≤ 9 → scale d s = d / 10 ^ (9 - s))
    ∧ (9 ≤ s → scale d s = d) := by
  refine ⟨?_, ?_, ?_⟩
  · intro _ hst ht9
    have hs9 : s ≤ 9 := hst.trans ht9
    unfold scale
    rw [if_neg (by omega), if_neg (by omega)]
    exact Nat.div_le_div_left
      (Nat.pow_le_pow_right (by norm_num) (by omega))
      (Nat.pos_pow_of_pos _ (by norm_num))
  · intro hs9
    unfold scale
    rw [if_neg (by omega)]
  · intro h9s
    unfold scale
    rcases Nat.lt_or_ge 9 s with h | h
    · rw [if_pos h]
    · have : s = 9 := by omega
      subst this
      simp

/-- C8 witness: the scaling relations at concrete inputs. -/
theorem C8_scale_witness :
    scale 123456789 3 ≤ scale 123456789 7
    ∧ scale 123456789 3 = 123456789 / 10 ^ 6
    ∧ scale 123456789 12 = 123456789 :=
  ⟨(C8_scale_monotone_saturating 123456789 3 7).1 (by decide) (by decide) (by decide),
   (C8_scale_monotone_saturating 123456789 3 7).2.1 (by decide),
   (C8_scale_monotone_saturating 123456789 12 12).2.2 (by decide)⟩

/-! ## Render pipeline (`src/format/writer.rs` and `src/logger/pretty.rs`)

The plain (non-`color`-feature) pipeline is embedded. The sink is a `String`
buffer threaded through each stage; each stage returns `Except ε String` so
that a stage failure short-circuits exactly like the source's `?` operator.
The one genuinely fallible stage is the time source, whose `format_time`
outcome is modelled by an `Except ε String` value in the configuration. -/

/-- The record a `log::Record` delivers to the handler. -/
structure LogRecord where
  target : String
  level : Level
  message : String

/-- `Display` of `log::Level`: the upper-case level names. -/
def levelName : Level → String
  | .error => "ERROR"
  | .warn => "WARN"
  | .info => "INFO"
  | .debug => "DEBUG"
  | .trace => "TRACE"

/-- Rust `{:<5}` formatting: left-justify to width 5 with spaces. -/
def padTo5 (s : String) : String :=
  s ++ String.mk (List.replicate (5 - s.length) ' ')

/-- `Writer::level` (non-color): write the record's level left-justified to
width 5. -/
def Writer.level {ε : Type} (r : LogRecord) (buf : String) : Except ε String :=
  Except.ok (buf ++ padTo5 (levelName r.level))

/-- `Writer::target` (non-color): a space and `[`, the target, then `]`. -/
def Writer.target {ε : Type} (r : LogRecord) (buf : String) : Except ε String :=
  Except.ok (buf ++ " [" ++ r.target ++ "]")

/-- `Writer::timestamp` (non-color): a single space, then the time source's
output; a time-source failure propagates. -/
def Writer.timestamp {ε : Type} (time : Except ε String) (buf : String) : Except ε String :=
  match time with
  | Except.error e => Except.error e
  | Except.ok t => Except.ok (buf ++ " " ++ t)

/-- `Writer::continuation` (non-color): a newline, then the continuation
string. -/
def Writer.continuation {ε : Type} (cont : String) (buf : String) : Except ε String :=
  Except.ok (buf ++ "\n" ++ cont)

/-- `Writer::message` (non-color): a space, the formatted message, then a
newline. -/
def Writer.message {ε : Type} (r : LogRecord) (buf : String) : Except ε String :=
  Except.ok (buf ++ " " ++ r.message ++ "\n")

/-- The `Pretty` logger configuration of `src/logger/pretty.rs` (non-color
build: `use_color` and `record_colors` are dead fields and omitted). The time
source is carried as the outcome its `format_time` produces. -/
structure Pretty (ε : Type) where
  continuation : Option String
  time : Option (Except ε String)
  level : Bool
  target : Bool

/-- `Pretty::print`: the fixed stage chain of `src/logger/pretty.rs`, each
stage behind its toggle and short-circuiting on failure exactly as the
source's `?` operator does. -/
def Pretty.print {ε : Type} (p : Pretty ε) (r : LogRecord) : Except ε String :=
  (if p.level then Writer.level r "" else Except.ok "").bind fun b1 =>
  (if p.target then Writer.target r b1 else Except.ok b1).bind fun b2 =>
  (match p.time with
   | some t => Writer.timestamp t b2
   | none => Except.ok b2).bind fun b3 =>
  (match p.continuation with
   | some c => Writer.continuation c b3
   | none => Except.ok b3).bind fun b4 =>
  Writer.message r b4

/-- Regrouping of the literal `"]"` with a following space. -/
theorem append_brk_space (X : String) : ("]" : String) ++ (" " ++ X) = "] " ++ X := by
  rw [← String.append_assoc]
  rfl

/-- Regrouping of the literal `"]"` with a following newline. -/
theorem append_brk_newline (X : String) : ("]" : String) ++ ("\n" ++ X) = "]\n" ++ X := by
  rw [← String.append_assoc]
  rfl

/-- C7: the pipeline emits the enabled fields in the fixed order level,
target, timestamp, continuation, message — level and target only if toggled
on, the timestamp only if a time source is configured and preceded by exactly
one space, the continuation only if configured (a newline then the marker),
the message always, preceded by a space and terminated by a newline; a
failing time source aborts the whole render with its error. -/
theorem C7_pretty_print_pipeline (ε : Type) (p : Pretty ε) (r : LogRecord) :
    (∀ e : ε, p.time = some (Except.error e) → p.print r = Except.error e)
    ∧ (∀ ts : Option String, p.time = ts.map Except.ok →
        p.print r = Except.ok (
          (if p.level then padTo5 (levelName r.level) else "")
          ++ (if p.target then " [" ++ r.target ++ "]" else "")
          ++ (match ts with | some t => " " ++ t | none => "")
          ++ (match p.continuation with | some c => "\n" ++ c | none => "")
          ++ " " ++ r.message ++ "\n")) := by
  obtain ⟨pc, pt, pl, ptg⟩ := p
  constructor
  · intro e he
    simp only at he
    subst he
    cases pl <;> cases ptg <;> cases pc <;>
      simp [Pretty.print, Writer.level, Writer.target, Writer.timestamp,
        Writer.continuation, Writer.message, Except.bind]
  · intro ts hts
    simp only at hts
    subst hts
    cases pl <;> cases ptg <;> cases pc <;> cases ts <;>
      simp [Pretty.print, Writer.level, Writer.target, Writer.timestamp,
        Writer.continuation, Writer.message, Except.bind,
        String.empty_append, String.append_assoc, append_brk_space, append_brk_newline]

/-- C7 witness: the pipeline at a fully-enabled configuration and at one with
a failing time source. -/
theorem C7_pretty_print_witness :
    Pretty.print (⟨some "⤷", some (Except.ok "9.3"), true, true⟩ : Pretty Unit)
        ⟨"mod", Level.info, "hi"⟩ = Except.ok "INFO  [mod] 9.3\n⤷ hi\n"
    ∧ Pretty.print (⟨some "⤷", some (Except.error ()), true, true⟩ : Pretty Unit)
        ⟨"mod", Level.info, "hi"⟩ = Except.error () := by
  constructor
  · have h := (C7_pretty_print_pipeline Unit
      ⟨some "⤷", some (Except.ok "9.3"), true, true⟩ ⟨"mod", Level.info, "hi"⟩).2
      (some "9.3") rfl
    rw [h]
    rfl
  · exact (C7_pretty_print_pipeline Unit
      ⟨some "⤷", some (Except.error ()), true, true⟩ ⟨"mod", Level.info, "hi"⟩).1 () rfl

/-! ## The handler (`src/lib.rs`) -/

/-- The `Logger` struct of `src/lib.rs` (the boxed formatter is passed
separately to the functions that use it). -/
structure Logger where
  minLevel : LevelFilter
  filters : Option Filtered

/-- `Log::enabled` of `src/lib.rs`: `metadata.level() <= self.min_level`. -/
def Logger.enabled (lg : Logger) (l : Level) : Bool :=
  levelLeFilter l lg.minLevel

/-- The printing decision taken by `Log::log` of `src/lib.rs`: print iff
enabled and, when filters are present, `apply` is false. -/
def Logger.log (lg : Logger) (r : LogRecord) : Bool :=
  if lg.enabled r.level then
    match lg.filters with
    | some f => !(f.apply r.target r.level)
    | none => true
  else false

/-- `Logger::print` of `src/lib.rs`: `let _ = self.fmt.print(record);` — the
formatter's `io::Result` is discarded whatever it is. -/
def Logger.printDiscard {ε : Type} (fmt : LogRecord → Except ε String) (r : LogRecord) : Unit :=
  match fmt r with
  | Except.ok _ => ()
  | Except.error _ => ()

/-- `Log::log` of `src/lib.rs` including the print call: invoke the formatter
(and discard its result) exactly when the printing decision is positive. -/
def Logger.logRun {ε : Type} (lg : Logger) (fmt : LogRecord → Except ε String)
    (r : LogRecord) : Unit :=
  if lg.log r then Logger.printDiscard fmt r else ()

/-- C3: the handler prints a record iff its level is at most `min_level` and,
when a filter table is present, `Filtered::apply` is false on it; with no
filter table, every enabled record is printed. -/
theorem C3_log_prints_iff (lg : Logger) (r : LogRecord) :
    (lg.log r = true ↔ (levelLeFilter r.level lg.minLevel = true
        ∧ ∀ f, lg.filters = some f → f.apply r.target r.level = false))
    ∧ (lg.filters = none → lg.log r = lg.enabled r.level) := by
  cases hf : lg.filters with
  | none =>
      cases he : levelLeFilter r.level lg.minLevel <;>
        simp [Logger.log, Logger.enabled, hf, he]
  | some f =>
      cases he : levelLeFilter r.level lg.minLevel <;>
        cases ha : f.apply r.target r.level <;>
          simp [Logger.log, Logger.enabled, hf, he, ha]

/-- C3 witness: an Error record with min level Info and no filter table is
printed. -/
theorem C3_log_prints_witness :
    Logger.log ⟨LevelFilter.info, none⟩ ⟨"m", Level.error, "x"⟩ = true := by
  have h := (C3_log_prints_iff ⟨LevelFilter.info, none⟩ ⟨"m", Level.error, "x"⟩).2 rfl
  rw [h]
  decide

/-- C9: a render failure is discarded by the handler — `logRun` returns unit
regardless of the formatter's outcome, and `print` discards an error result. -/
theorem C9_render_failure_swallowed (ε : Type) (lg : Logger)
    (fmt : LogRecord → Except ε String) (r : LogRecord) :
    Logger.logRun lg fmt r = ()
    ∧ (∀ e : ε, fmt r = Except.error e → Logger.printDiscard fmt r = ()) :=
  ⟨rfl, fun _ _ => rfl⟩

/-- C9 witness: a formatter that always fails is still swallowed. -/
theorem C9_render_failure_witness :
    Logger.logRun ⟨LevelFilter.trace, none⟩
        (fun _ => (Except.error () : Except Unit String)) ⟨"m", Level.info, "x"⟩ = ()
    ∧ Logger.printDiscard (fun _ => (Except.error () : Except Unit String))
        ⟨"m", Level.info, "x"⟩ = () :=
  ⟨(C9_render_failure_swallowed Unit ⟨LevelFilter.trace, none⟩
      (fun _ => Except.error ()) ⟨"m", Level.info, "x"⟩).1,
   (C9_render_failure_swallowed Unit ⟨LevelFilter.trace, none⟩
      (fun _ => Except.error ()) ⟨"m", Level.info, "x"⟩).2 () rfl⟩
